import Mathlib

/-!
Verification of the transactional storage core of the Cloud Spanner emulator.

Part A embeds `backend/transaction/read_only_transaction.cc`: timestamps are
integers counting microseconds (absl::Time at microsecond resolution),
durations are integers counting microseconds.  The random staleness draw of
`PickReadTimestamp` (absl::Uniform over the half-open interval [lo, hi)) is
modelled by an explicit draw parameter `r` together with the predicate
`randOk` describing exactly the values the generator can produce; the uniform
distribution over that support is carried to the read timestamp by the
injection r to now - r, so statements about the support settle statements
about the set of possible uniformly chosen timestamps.

Part B models the index maintenance and read-write commit path exercised by
`tests/conformance/cases/indexing.cc`; that implementation is not part of the
staged sources, so it is modelled from the spec (sections 4.C6 and 4.C7) and
checked against the concrete conformance scenarios.
-/

namespace Emulator

/-- Error codes surfaced to callers (spec section 6; only the codes the
claims touch are modelled). `timestampPastVersionGcLimit` corresponds to
`error::ReadTimestampPastVersionGCLimit(read_timestamp_)` and carries the
transaction's read timestamp. -/
inductive ErrorCode
  | timestampPastVersionGcLimit (ts : Int)
  | invalidSchema
  | alreadyExists
deriving DecidableEq, Repr

/-- kMaxStaleReadDuration = absl::Hours(1), in microseconds. -/
def kMaxStaleReadDuration : Int := 3600000000

/-- TimestampBound of ReadOnlyOptions (backend/transaction/options.h), the
five variants switched on in `PickReadTimestamp`. -/
inductive TimestampBound
  | strongRead
  | exactTimestamp
  | exactStaleness
  | minTimestamp
  | maxStaleness
deriving DecidableEq, Repr

/-- ReadOnlyOptions: the bound tag plus the `timestamp` and `staleness`
fields read by the corresponding branches of `PickReadTimestamp`. -/
structure ReadOnlyOptions where
  bound : TimestampBound
  timestamp : Int
  staleness : Int
deriving DecidableEq, Repr

/-- The adjustment at the head of `get_random_stale_timestamp`:
`if (min_timestamp < last_commit_timestamp) min_timestamp = last_commit_timestamp`. -/
def effectiveMinTimestamp (minTimestamp lct : Int) : Int :=
  if minTimestamp < lct then lct else minTimestamp

/-- ReadOnlyTransaction::PickReadTimestamp, with the clock value `now`, the
lock manager's `lct = LastCommitTimestamp()` and the random staleness draw
`r` made explicit.  `get_random_stale_timestamp(min)` returns
`clock_->Now() - absl::Microseconds(random_staleness)` where the draw is
`absl::Uniform<int64_t>(gen, 0, ToInt64Microseconds(now - min))`; the value
of the draw is the parameter `r`, constrained by `randOk`. -/
def pickReadTimestamp (o : ReadOnlyOptions) (now lct r : Int) : Int :=
  match o.bound with
  | .strongRead => now
  | .exactTimestamp => o.timestamp
  | .exactStaleness => now - o.staleness
  | .minTimestamp => now - r
  | .maxStaleness => now - r

/-- The support of the random staleness draw: `absl::Uniform<int64_t>(gen, 0, n)`
produces exactly the integers of the half-open interval [0, n), where
`n = now - effectiveMinTimestamp ...` per the bound; deterministic bounds do
not draw, which is modelled as the degenerate draw `r = 0`. -/
def randOk (o : ReadOnlyOptions) (now lct r : Int) : Prop :=
  match o.bound with
  | .minTimestamp => 0 ≤ r ∧ r < now - effectiveMinTimestamp o.timestamp lct
  | .maxStaleness => 0 ≤ r ∧ r < now - effectiveMinTimestamp (now - o.staleness) lct
  | _ => r = 0

/-- A read timestamp the transaction can end up with under options `o`, clock
`now` and last commit timestamp `lct`: some valid draw of the generator
produces it.  For the randomised bounds the draw is uniform, and the map from
draw to timestamp is injective, so each member of this set is equally likely. -/
def possibleReadTimestamp (o : ReadOnlyOptions) (now lct ts : Int) : Prop :=
  ∃ r, randOk o now lct r ∧ pickReadTimestamp o now lct r = ts

/-- Values stored in rows: 64-bit integers, strings, or the typed null.
Shared by the key-set model of Part A and the index model of Part B. -/
inductive Value
  | null
  | int (i : Int)
  | str (s : String)
deriving DecidableEq, Repr

/-- A key range of the canonicalised key set (spec section 6: ranges carry
start/end keys and inclusivity flags). -/
structure KeyRange where
  startKey : List Value
  endKey : List Value
  startInclusive : Bool
  endInclusive : Bool
deriving DecidableEq, Repr

/-- A key set per spec section 6: point keys, ranges and the all flag. -/
structure KeySet where
  points : List (List Value)
  ranges : List KeyRange
  all : Bool
deriving DecidableEq, Repr

/-- A table of the pinned schema: id, name, column names and the names of its
indexes.  Only what name resolution needs is modelled. -/
structure SchemaTable where
  id : Nat
  name : String
  columns : List String
  indexes : List String
deriving DecidableEq, Repr

/-- The schema pinned by a read-only transaction at its read timestamp. -/
structure Schema where
  tables : List SchemaTable
deriving DecidableEq, Repr

/-- Read request per spec section 6: table name, optional index name, column
names and a key set. -/
structure ReadArg where
  table : String
  index : Option String
  columns : List String
  keySet : KeySet
deriving DecidableEq, Repr

/-- Modelled from the spec: `ExtractTableAndColumnsFromReadArg`
(backend/transaction/read_util.cc is not among the staged sources) resolves
the table, the optional index and the columns against the pinned schema and
"fails with InvalidSchema on unknown names" (spec section 4.C5). -/
def extractTableAndColumns (arg : ReadArg) (s : Schema) : Except ErrorCode SchemaTable :=
  match s.tables.find? (fun t => t.name == arg.table) with
  | none => Except.error ErrorCode.invalidSchema
  | some t =>
    if arg.columns.all (fun c => t.columns.contains c) then
      match arg.index with
      | none => Except.ok t
      | some i =>
        if t.indexes.contains i then Except.ok t else Except.error ErrorCode.invalidSchema
    else Except.error ErrorCode.invalidSchema

/-- Modelled from the spec: `CanonicalizeKeySetForTable`
(backend/transaction/read_util.cc is not among the staged sources)
"canonicalises the key set into a minimal, ordered, non-overlapping set of
key ranges" (spec section 4.C5).  The claims here do not depend on the
canonical form, so it is modelled as the full range when `all` is set,
followed by the point keys as degenerate closed ranges and the explicit
ranges. -/
def canonicalizeKeySetForTable (ks : KeySet) : List KeyRange :=
  (if ks.all then [⟨[], [], true, true⟩] else [])
    ++ ks.points.map (fun p => ⟨p, p, true, true⟩) ++ ks.ranges

/-- The state of a ReadOnlyTransaction after construction: the fields
`read_timestamp_` and `schema_` that every later `Read` consults.  Reads are
served against the immutable base storage; the model records which storage
reads are issued rather than their row contents. -/
structure ReadOnlyTransaction where
  readTimestamp : Int
  schema : Schema
deriving DecidableEq

/-- One call `base_storage_->Read(read_timestamp_, table->id(), key_range, ...)`
issued by `ReadOnlyTransaction::Read`: the timestamp, table id and key range
passed to the versioned storage. -/
structure StorageReadEvent where
  ts : Int
  tableId : Nat
  range : KeyRange
deriving DecidableEq, Repr

/-- ReadOnlyTransaction::Read.  First the GC-horizon check
`clock_->Now() - read_timestamp_ >= kMaxStaleReadDuration`, then table and
column resolution, then one storage read per canonicalised key range, all at
`read_timestamp_`.  The spec's storage read (section 4.C2) returns an
iterator and no error, so the success value is the list of storage reads
issued. -/
def ReadOnlyTransaction.read (txn : ReadOnlyTransaction) (now : Int) (arg : ReadArg) :
    Except ErrorCode (List StorageReadEvent) :=
  if kMaxStaleReadDuration ≤ now - txn.readTimestamp then
    Except.error (ErrorCode.timestampPastVersionGcLimit txn.readTimestamp)
  else
    match extractTableAndColumns arg txn.schema with
    | Except.error e => Except.error e
    | Except.ok t =>
      Except.ok ((canonicalizeKeySetForTable arg.keySet).map
        (fun kr => ⟨txn.readTimestamp, t.id, kr⟩))

/-- The versioned catalog interface (spec section 4.C4): `GetSchema(ts)`
returns the schema valid at `ts`. -/
structure VersionedCatalog where
  getSchema : Int → Schema

/-- The constructor steps of ReadOnlyTransaction that the claims order:
picking the read timestamp, `lock_handle_->WaitForSafeRead(read_timestamp_)`
and `versioned_catalog->GetSchema(read_timestamp_)`, each recorded with the
timestamp it was given. -/
inductive TxnEvent
  | pickTimestamp (ts : Int)
  | waitForSafeRead (ts : Int)
  | getSchema (ts : Int)
deriving DecidableEq, Repr

/-- ReadOnlyTransaction::ReadOnlyTransaction: assigns
`read_timestamp_ = PickReadTimestamp()`, then waits for safe read at that
timestamp, then fetches `schema_ = versioned_catalog->GetSchema(read_timestamp_)`.
Returns the constructed state together with the ordered trace of those steps. -/
def constructReadOnlyTransaction (o : ReadOnlyOptions) (now lct r : Int)
    (catalog : VersionedCatalog) : ReadOnlyTransaction × List TxnEvent :=
  let ts := pickReadTimestamp o now lct r
  (⟨ts, catalog.getSchema ts⟩,
   [TxnEvent.pickTimestamp ts, TxnEvent.waitForSafeRead ts, TxnEvent.getSchema ts])

/-- The storage reads a Read issued, empty when it failed. -/
def issuedReads (res : Except ErrorCode (List StorageReadEvent)) : List StorageReadEvent :=
  match res with
  | Except.ok evs => evs
  | Except.error _ => []

/-! Part B: the index maintainer and the read-write mutation path, for the
`Users(ID INT64 NOT NULL, Name STRING, Age INT64) PRIMARY KEY (ID)` schema of
the conformance tests. -/

/-- A row of the Users table: the primary key ID and the nullable Name and
Age columns. -/
structure Row where
  id : Int
  name : Value
  age : Value
deriving DecidableEq, Repr

/-- A column of the Users table an index can list. -/
inductive Col
  | id
  | name
  | age
deriving DecidableEq, Repr

/-- The value a row holds in a column. -/
def getCol (r : Row) : Col → Value
  | Col.id => Value.int r.id
  | Col.name => r.name
  | Col.age => r.age

/-- Sort direction of an indexed column. -/
inductive Dir
  | asc
  | desc
deriving DecidableEq, Repr

/-- An index definition: the indexed columns with their directions, the
null-filtered flag and the unique flag (spec section 3). -/
structure IndexDef where
  cols : List (Col × Dir)
  nullFiltered : Bool
  unique : Bool
deriving DecidableEq, Repr

/-- Three-way comparison of integers. -/
def cmpInt (a b : Int) : Ordering :=
  if a < b then Ordering.lt else if b < a then Ordering.gt else Ordering.eq

/-- Lexicographic three-way comparison of character lists by code point. -/
def cmpCharList : List Char → List Char → Ordering
  | [], [] => Ordering.eq
  | [], _ :: _ => Ordering.lt
  | _ :: _, [] => Ordering.gt
  | a :: as, b :: bs =>
    match cmpInt a.toNat b.toNat with
    | Ordering.eq => cmpCharList as bs
    | o => o

/-- Modelled from the spec: value comparison for index keys.  "Nulls sort as
the smallest value in ascending order" (spec invariant I5); integers compare
numerically and strings lexicographically. -/
def cmpValue : Value → Value → Ordering
  | Value.null, Value.null => Ordering.eq
  | Value.null, _ => Ordering.lt
  | _, Value.null => Ordering.gt
  | Value.int a, Value.int b => cmpInt a b
  | Value.int _, Value.str _ => Ordering.lt
  | Value.str _, Value.int _ => Ordering.gt
  | Value.str a, Value.str b => cmpCharList a.data b.data

/-- Modelled from the spec: comparison of two rows under an index's column
list.  "For each column marked descending, the stored encoding inverts the
sort order so that a single forward scan yields the declared order" (spec
section 4.C7); the inversion is modelled by swapping the comparison. -/
def cmpCols : List (Col × Dir) → Row → Row → Ordering
  | [], _, _ => Ordering.eq
  | (c, d) :: rest, r1, r2 =>
    let o := cmpValue (getCol r1 c) (getCol r2 c)
    let o := match d with
      | Dir.asc => o
      | Dir.desc => o.swap
    match o with
    | Ordering.eq => cmpCols rest r1 r2
    | o => o

/-- Modelled from the spec: the full index-entry order.  "Ties are broken by
appending the base table's primary-key columns" (spec section 4.C7), so rows
equal on the indexed columns are ordered by the primary key ID. -/
def cmpRowsByIndex (idx : IndexDef) (r1 r2 : Row) : Ordering :=
  match cmpCols idx.cols r1 r2 with
  | Ordering.eq => cmpInt r1.id r2.id
  | o => o

/-- The tuple of indexed-column values of a row under an index: the
indexed-columns part of the index key. -/
def indexKeyVals (idx : IndexDef) (r : Row) : List Value :=
  idx.cols.map (fun cd => getCol r cd.1)

/-- Modelled from the spec: the null-filter rule.  "If I is null-filtered and
any indexed column of the resulting row is null, M contributes no index
entry" (spec section 4.C7). -/
def rowFiltered (idx : IndexDef) (r : Row) : Bool :=
  idx.nullFiltered && (indexKeyVals idx r).any (fun v => v == Value.null)

/-- Insertion of a row into a list sorted by the index order. -/
def insertRowSorted (idx : IndexDef) (a : Row) : List Row → List Row
  | [] => [a]
  | x :: xs =>
    match cmpRowsByIndex idx a x with
    | Ordering.gt => x :: insertRowSorted idx a xs
    | _ => a :: x :: xs

/-- Insertion sort of rows by the index order. -/
def sortByIndex (idx : IndexDef) (rows : List Row) : List Row :=
  rows.foldr (insertRowSorted idx) []

/-- Modelled from the spec: a full scan of an index over the live rows.  Rows
filtered out by the null-filter rule contribute no entry; the remaining
entries come back in index-key order (spec sections 4.C5 and 4.C7). -/
def scanIndex (idx : IndexDef) (db : List Row) : List Row :=
  sortByIndex idx (db.filter (fun r => !rowFiltered idx r))

/-- Projection of a scanned entry onto (Name, ID), as the conformance
scenarios read index entries back. -/
def projNameId (r : Row) : Value × Int := (r.name, r.id)

/-- Projection of a scanned entry onto (Name, Age, ID). -/
def projNameAgeId (r : Row) : Value × Value × Int := (r.name, r.age, r.id)

/-- Modelled from the spec: the uniqueness check of one unique index against
a state.  "Check whether another live entry with the same indexed-columns
tuple exists ... Null-filtered unique indexes never generate such entries for
null-bearing rows, so those rows never collide" (spec section 4.C7). -/
def uniqueConflict (idx : IndexDef) (db : List Row) (r : Row) : Bool :=
  idx.unique && !rowFiltered idx r &&
    db.any (fun x => !rowFiltered idx x && indexKeyVals idx x == indexKeyVals idx r)

/-- A new row conflicts with the state under some unique index of the schema. -/
def violatesUnique (idxs : List IndexDef) (db : List Row) (r : Row) : Bool :=
  idxs.any (fun idx => uniqueConflict idx db r)

/-- Modelled from the spec: inserting a row into the combined
(already-committed plus buffered) state.  An insert "fails if a live row
exists at that key" (spec section 4.C2), and each unique index is checked
against the combined state (spec sections 4.C6 and 4.C7); either violation
surfaces as AlreadyExists. -/
def insertRow (idxs : List IndexDef) (db : List Row) (r : Row) :
    Except ErrorCode (List Row) :=
  if db.any (fun x => x.id == r.id) then Except.error ErrorCode.alreadyExists
  else if violatesUnique idxs db r then Except.error ErrorCode.alreadyExists
  else Except.ok (db ++ [r])

/-- The values an insert supplies: the primary key and an optional value per
non-key column.  "An insert that omits a column leaves it null" (spec section
4.C7), so a missing entry becomes the typed null. -/
structure InsertVals where
  id : Int
  name : Option Value
  age : Option Value
deriving DecidableEq, Repr

/-- The row an insert builds: omitted columns become null. -/
def mkRow (v : InsertVals) : Row :=
  ⟨v.id, v.name.getD Value.null, v.age.getD Value.null⟩

/-- A buffered mutation of a read-write transaction (the kinds the claims
exercise): insert and insert-or-update. -/
inductive Mutation
  | ins (v : InsertVals)
  | insOrUpd (v : InsertVals)
deriving DecidableEq, Repr

/-- The row an insert-or-update leaves when a row already exists: supplied
columns are overwritten, omitted columns keep their old values. -/
def applyVals (old : Row) (v : InsertVals) : Row :=
  ⟨v.id, v.name.getD old.name, v.age.getD old.age⟩

/-- Modelled from the spec: applying one buffered mutation to the combined
state.  Insert-or-update "always succeeds" as an upsert (spec section 4.C2):
it updates the existing row when the key is present (checking the changed row
against the other rows' unique-index entries) and inserts otherwise. -/
def applyMutation (idxs : List IndexDef) (db : List Row) :
    Mutation → Except ErrorCode (List Row)
  | Mutation.ins v => insertRow idxs db (mkRow v)
  | Mutation.insOrUpd v =>
    match db.find? (fun x => x.id == v.id) with
    | none => insertRow idxs db (mkRow v)
    | some old =>
      let newRow := applyVals old v
      if violatesUnique idxs (db.filter (fun x => !(x.id == v.id))) newRow then
        Except.error ErrorCode.alreadyExists
      else
        Except.ok (db.map (fun x => if x.id == v.id then newRow else x))

/-- Modelled from the spec: a read-write transaction's buffered mutations
applied in arrival order against the combined state, stopping at the first
violation (spec sections 4.C2 and 4.C6). -/
def applyMutations (idxs : List IndexDef) (db : List Row) :
    List Mutation → Except ErrorCode (List Row)
  | [] => Except.ok db
  | m :: ms =>
    match applyMutation idxs db m with
    | Except.error e => Except.error e
    | Except.ok db2 => applyMutations idxs db2 ms

/-- CREATE INDEX UsersByName ON Users(Name). -/
def usersByName : IndexDef := ⟨[(Col.name, Dir.asc)], false, false⟩

/-- CREATE INDEX UsersByNameDescending ON Users(Name DESC). -/
def usersByNameDescending : IndexDef := ⟨[(Col.name, Dir.desc)], false, false⟩

/-- CREATE NULL_FILTERED INDEX UsersByNameNullFiltered ON Users(Name, Age). -/
def usersByNameNullFiltered : IndexDef :=
  ⟨[(Col.name, Dir.asc), (Col.age, Dir.asc)], true, false⟩

/-- CREATE UNIQUE INDEX UsersByNameAgeUnique ON Users(Name, Age). -/
def usersByNameAgeUnique : IndexDef :=
  ⟨[(Col.name, Dir.asc), (Col.age, Dir.asc)], false, true⟩

/-- CREATE UNIQUE NULL_FILTERED INDEX UsersByNameUniqueFiltered ON Users(Name). -/
def usersByNameUniqueFiltered : IndexDef := ⟨[(Col.name, Dir.asc)], true, true⟩

/-- The five indexes of the conformance test schema. -/
def usersIndexes : List IndexDef :=
  [usersByName, usersByNameDescending, usersByNameNullFiltered,
   usersByNameAgeUnique, usersByNameUniqueFiltered]

/-- The inserts of scenarios S1 and S2: rows (0,Adam,20), (1,John,22),
(2,Peter,41), (4,Matthew,33), (5,null,18). -/
def s1Inserts : List Mutation :=
  [Mutation.ins ⟨0, some (Value.str "Adam"), some (Value.int 20)⟩,
   Mutation.ins ⟨1, some (Value.str "John"), some (Value.int 22)⟩,
   Mutation.ins ⟨2, some (Value.str "Peter"), some (Value.int 41)⟩,
   Mutation.ins ⟨4, some (Value.str "Matthew"), some (Value.int 33)⟩,
   Mutation.ins ⟨5, some Value.null, some (Value.int 18)⟩]

/-- The committed Users rows of the uniqueness scenarios: (0,Adam,20),
(1,"",22), (2,null,41), (3,John,28). -/
def wRow0 : Row := ⟨0, Value.str "Adam", Value.int 20⟩

def wRow1 : Row := ⟨1, Value.str "", Value.int 22⟩

def wRow2 : Row := ⟨2, Value.null, Value.int 41⟩

def wRow3 : Row := ⟨3, Value.str "John", Value.int 28⟩

def wDb : List Row := [wRow0, wRow1, wRow2, wRow3]

/-- The row (5,"",20) whose Name collides with wRow1 under the null-filtered
unique index on Name. -/
def wNew : Row := ⟨5, Value.str "", Value.int 20⟩

/-! Helper lemmas. -/

theorem extract_error_invalid {arg : ReadArg} {s : Schema} {e : ErrorCode}
    (h : extractTableAndColumns arg s = Except.error e) :
    e = ErrorCode.invalidSchema := by
  unfold extractTableAndColumns at h
  split at h
  · injection h with h2
    exact h2.symm
  · split at h
    · split at h
      · exact Except.noConfusion h
      · split at h
        · exact Except.noConfusion h
        · injection h with h2
          exact h2.symm
    · injection h with h2
      exact h2.symm

theorem read_events_at_read_timestamp (txn : ReadOnlyTransaction) (now : Int)
    (arg : ReadArg) (e : StorageReadEvent)
    (he : e ∈ issuedReads (txn.read now arg)) : e.ts = txn.readTimestamp := by
  unfold ReadOnlyTransaction.read at he
  split at he
  · simp [issuedReads] at he
  · rcases hx : extractTableAndColumns arg txn.schema with e2 | t
    · rw [hx] at he
      simp [issuedReads] at he
    · rw [hx] at he
      simp only [issuedReads, List.mem_map] at he
      obtain ⟨kr, _, hek⟩ := he
      rw [← hek]

theorem mem_insertRowSorted (idx : IndexDef) (a x : Row) (l : List Row) :
    x ∈ insertRowSorted idx a l ↔ x = a ∨ x ∈ l := by
  induction l with
  | nil => simp [insertRowSorted]
  | cons b bs ih =>
    unfold insertRowSorted
    cases h : cmpRowsByIndex idx a b with
    | lt => simp [List.mem_cons]
    | eq => simp [List.mem_cons]
    | gt =>
      simp only [List.mem_cons, ih]
      tauto

theorem mem_sortByIndex (idx : IndexDef) (x : Row) (l : List Row) :
    x ∈ sortByIndex idx l ↔ x ∈ l := by
  induction l with
  | nil => simp [sortByIndex]
  | cons b bs ih =>
    simp only [sortByIndex, List.foldr_cons] at *
    rw [mem_insertRowSorted]
    simp only [List.mem_cons, ih]

/-! The claims. -/

/-- C1, counterexample: with bound MinTimestamp(0), lct = 0 and now = 10 the
claim's closed interval [max(0, 0), 10] contains the timestamp 0, but no
value of the random staleness draw (uniform over the half-open interval
[0, now - max(t, lct)) per absl::Uniform) yields 0, so the set of possible
read timestamps is not the claimed closed interval. -/
theorem pickReadTimestamp_closed_interval_cex :
    ¬ (possibleReadTimestamp ⟨TimestampBound.minTimestamp, 0, 0⟩ 10 0 0
        ↔ (max (0:Int) 0 ≤ (0:Int) ∧ (0:Int) ≤ 10)) := by
  intro h
  obtain ⟨r, hr, hp⟩ := h.mpr ⟨by simp, by norm_num⟩
  have h1 : (0:Int) ≤ r ∧ r < 10 - effectiveMinTimestamp 0 0 := hr
  have h2 : (10:Int) - r = 0 := hp
  have h3 : effectiveMinTimestamp (0:Int) 0 = 0 := by
    unfold effectiveMinTimestamp
    norm_num
  omega

/-- C1 (amended): for bound MinTimestamp(t) the possible read timestamps are
exactly the half-open interval (max(t, lct), now] — each equally likely,
since the staleness draw is uniform over [0, now - max(t, lct)) and the map
from draw to timestamp is injective — and for MaxStaleness(d) exactly
(max(now - d, lct), now], provided the adjusted minimum lies before now; in
particular the chosen timestamp is strictly newer than the lock manager's
last commit timestamp, hence never older than it. -/
theorem pickReadTimestamp_random_interval (t d now lct : Int)
    (h1 : effectiveMinTimestamp t lct < now)
    (h2 : effectiveMinTimestamp (now - d) lct < now) :
    (∀ ts, possibleReadTimestamp ⟨TimestampBound.minTimestamp, t, d⟩ now lct ts
        ↔ (max t lct < ts ∧ ts ≤ now))
    ∧ (∀ ts, possibleReadTimestamp ⟨TimestampBound.maxStaleness, t, d⟩ now lct ts
        ↔ (max (now - d) lct < ts ∧ ts ≤ now))
    ∧ (∀ ts, possibleReadTimestamp ⟨TimestampBound.minTimestamp, t, d⟩ now lct ts
        → lct < ts)
    ∧ (∀ ts, possibleReadTimestamp ⟨TimestampBound.maxStaleness, t, d⟩ now lct ts
        → lct < ts) := by
  have hm1 : effectiveMinTimestamp t lct = max t lct := by
    unfold effectiveMinTimestamp
    split <;> omega
  have hm2 : effectiveMinTimestamp (now - d) lct = max (now - d) lct := by
    unfold effectiveMinTimestamp
    split <;> omega
  refine ⟨fun ts => ⟨?_, ?_⟩, fun ts => ⟨?_, ?_⟩, ?_, ?_⟩
  · intro hp
    obtain ⟨r, hr, he⟩ := hp
    have hr2 : (0:Int) ≤ r ∧ r < now - effectiveMinTimestamp t lct := hr
    have he2 : now - r = ts := he
    rw [hm1] at hr2
    omega
  · intro hc
    refine ⟨now - ts, ?_, ?_⟩
    · show 0 ≤ now - ts ∧ now - ts < now - effectiveMinTimestamp t lct
      rw [hm1]
      omega
    · show now - (now - ts) = ts
      omega
  · intro hp
    obtain ⟨r, hr, he⟩ := hp
    have hr2 : (0:Int) ≤ r ∧ r < now - effectiveMinTimestamp (now - d) lct := hr
    have he2 : now - r = ts := he
    rw [hm2] at hr2
    omega
  · intro hc
    refine ⟨now - ts, ?_, ?_⟩
    · show 0 ≤ now - ts ∧ now - ts < now - effectiveMinTimestamp (now - d) lct
      rw [hm2]
      omega
    · show now - (now - ts) = ts
      omega
  · intro ts hp
    obtain ⟨r, hr, he⟩ := hp
    have hr2 : (0:Int) ≤ r ∧ r < now - effectiveMinTimestamp t lct := hr
    have he2 : now - r = ts := he
    rw [hm1] at hr2
    omega
  · intro ts hp
    obtain ⟨r, hr, he⟩ := hp
    have hr2 : (0:Int) ≤ r ∧ r < now - effectiveMinTimestamp (now - d) lct := hr
    have he2 : now - r = ts := he
    rw [hm2] at hr2
    omega

/-- C1, witness: the amended statement instantiated at t = 2, d = 3,
now = 10, lct = 5, where both adjusted minimums (5 and 7) lie before now. -/
theorem pickReadTimestamp_random_interval_witness :
    (effectiveMinTimestamp 2 5 < 10 ∧ effectiveMinTimestamp (10 - 3) 5 < 10)
    ∧ ((∀ ts, possibleReadTimestamp ⟨TimestampBound.minTimestamp, 2, 3⟩ 10 5 ts
          ↔ (max 2 5 < ts ∧ ts ≤ 10))
      ∧ (∀ ts, possibleReadTimestamp ⟨TimestampBound.maxStaleness, 2, 3⟩ 10 5 ts
          ↔ (max (10 - 3) 5 < ts ∧ ts ≤ 10))
      ∧ (∀ ts, possibleReadTimestamp ⟨TimestampBound.minTimestamp, 2, 3⟩ 10 5 ts
          → 5 < ts)
      ∧ (∀ ts, possibleReadTimestamp ⟨TimestampBound.maxStaleness, 2, 3⟩ 10 5 ts
          → 5 < ts)) :=
  ⟨⟨by decide, by decide⟩,
   pickReadTimestamp_random_interval 2 3 10 5 (by decide) (by decide)⟩

/-- C2: a read on a read-only transaction fails with
TimestampPastVersionGcLimit exactly when the read timestamp is at least
kMaxStaleReadDuration (one hour) behind the clock at the time of the call;
within the GC horizon this error never occurs, whatever the read argument. -/
theorem read_gc_limit_iff (txn : ReadOnlyTransaction) (now : Int) (arg : ReadArg) :
    txn.read now arg
        = Except.error (ErrorCode.timestampPastVersionGcLimit txn.readTimestamp)
      ↔ kMaxStaleReadDuration ≤ now - txn.readTimestamp := by
  unfold ReadOnlyTransaction.read
  by_cases h : kMaxStaleReadDuration ≤ now - txn.readTimestamp
  · simp [h]
  · rw [if_neg h]
    constructor
    · intro hc
      rcases hx : extractTableAndColumns arg txn.schema with e2 | tb
      · have he := extract_error_invalid hx
        subst he
        rw [hx] at hc
        simp at hc
      · rw [hx] at hc
        simp at hc
    · intro hc
      exact absurd hc h

/-- C3: construction picks the read timestamp, then waits for safe read at
that timestamp, then fetches the schema at that timestamp, in that order; the
constructed transaction carries exactly that timestamp and schema, every
storage read a later Read issues is at that timestamp, and a Read behaves
exactly as a transaction whose timestamp and schema are the ones fixed at
construction. -/
theorem construction_order_and_immutability (o : ReadOnlyOptions) (now lct r : Int)
    (cat : VersionedCatalog) :
    (constructReadOnlyTransaction o now lct r cat).2
        = [TxnEvent.pickTimestamp (pickReadTimestamp o now lct r),
           TxnEvent.waitForSafeRead (pickReadTimestamp o now lct r),
           TxnEvent.getSchema (pickReadTimestamp o now lct r)]
    ∧ (constructReadOnlyTransaction o now lct r cat).1.readTimestamp
        = pickReadTimestamp o now lct r
    ∧ (constructReadOnlyTransaction o now lct r cat).1.schema
        = cat.getSchema (pickReadTimestamp o now lct r)
    ∧ (∀ now2 arg e,
        e ∈ issuedReads ((constructReadOnlyTransaction o now lct r cat).1.read now2 arg)
        → e.ts = pickReadTimestamp o now lct r)
    ∧ (∀ now2 arg,
        (constructReadOnlyTransaction o now lct r cat).1.read now2 arg
          = ReadOnlyTransaction.read
              ⟨pickReadTimestamp o now lct r,
               cat.getSchema (pickReadTimestamp o now lct r)⟩ now2 arg) := by
  refine ⟨rfl, rfl, rfl, ?_, fun now2 arg => rfl⟩
  intro now2 arg e he
  exact read_events_at_read_timestamp _ now2 arg e he

/-- C6: the deterministic timestamp bounds: StrongRead picks the clock value
now, ExactTimestamp(t) picks exactly t, and ExactStaleness(d) picks now - d. -/
theorem pickReadTimestamp_deterministic_bounds (t d now lct r : Int) :
    pickReadTimestamp ⟨TimestampBound.strongRead, t, d⟩ now lct r = now
    ∧ pickReadTimestamp ⟨TimestampBound.exactTimestamp, t, d⟩ now lct r = t
    ∧ pickReadTimestamp ⟨TimestampBound.exactStaleness, t, d⟩ now lct r = now - d :=
  ⟨rfl, rfl, rfl⟩

/-- C9: whenever the read timestamp is at least one hour behind the clock,
Read returns the TimestampPastVersionGcLimit error for every read argument —
the GC-horizon check runs before table and column resolution, so the error
takes precedence over any schema error. -/
theorem read_gc_check_precedes_resolution (txn : ReadOnlyTransaction) (now : Int)
    (arg : ReadArg) (h : kMaxStaleReadDuration ≤ now - txn.readTimestamp) :
    txn.read now arg
      = Except.error (ErrorCode.timestampPastVersionGcLimit txn.readTimestamp) := by
  unfold ReadOnlyTransaction.read
  rw [if_pos h]

/-- A schema holding only the Users table, and a read argument naming a table
the schema does not know. -/
def gcSchema : Schema := ⟨[⟨7, "Users", ["ID", "Name", "Age"], ["UsersByName"]⟩]⟩

def gcBadArg : ReadArg := ⟨"NoSuchTable", none, ["ID"], ⟨[], [], true⟩⟩

def gcTxn : ReadOnlyTransaction := ⟨0, gcSchema⟩

/-- C9, witness: a transaction with read timestamp 0 read at clock time
kMaxStaleReadDuration with an argument naming an unknown table — resolution
alone would fail with InvalidSchema, yet Read returns the GC-limit error. -/
theorem read_gc_check_precedes_resolution_witness :
    kMaxStaleReadDuration ≤ kMaxStaleReadDuration - gcTxn.readTimestamp
    ∧ extractTableAndColumns gcBadArg gcTxn.schema = Except.error ErrorCode.invalidSchema
    ∧ gcTxn.read kMaxStaleReadDuration gcBadArg
        = Except.error (ErrorCode.timestampPastVersionGcLimit gcTxn.readTimestamp) :=
  ⟨by decide, rfl,
   read_gc_check_precedes_resolution gcTxn kMaxStaleReadDuration gcBadArg (by decide)⟩

/-- C4: an insert that omits a column leaves it null, uniformly: on an empty
Users table, insert of only the key 0 yields the row (0, null, null); under
the non-null-filtered unique index on (Name, Age) the subsequent key-only
insert of 1 fails with AlreadyExists, both rows producing the index key
(null, null); under the null-filtered unique index both inserts succeed. -/
theorem implicit_nulls_unique_index :
    applyMutation [usersByNameAgeUnique] [] (Mutation.ins ⟨0, none, none⟩)
        = Except.ok [⟨0, Value.null, Value.null⟩]
    ∧ applyMutation [usersByNameAgeUnique] [⟨0, Value.null, Value.null⟩]
        (Mutation.ins ⟨1, none, none⟩)
        = Except.error ErrorCode.alreadyExists
    ∧ applyMutations [usersByNameUniqueFiltered] []
        [Mutation.ins ⟨0, none, none⟩, Mutation.ins ⟨1, none, none⟩]
        = Except.ok [⟨0, Value.null, Value.null⟩, ⟨1, Value.null, Value.null⟩] :=
  ⟨rfl, rfl, rfl⟩

/-- C5: within one read-write transaction starting from an empty committed
state, upsert of key 0 followed by insert of key 1 fails with AlreadyExists
under the non-null-filtered unique index on (Name, Age) — the insert is
checked against the combined committed-plus-buffered state, which already
holds the buffered (null, null) index entry; the same holds under the full
conformance-test index set. -/
theorem intra_transaction_uniqueness :
    applyMutations [usersByNameAgeUnique] []
        [Mutation.insOrUpd ⟨0, none, none⟩, Mutation.ins ⟨1, none, none⟩]
        = Except.error ErrorCode.alreadyExists
    ∧ applyMutations usersIndexes []
        [Mutation.insOrUpd ⟨0, none, none⟩, Mutation.ins ⟨1, none, none⟩]
        = Except.error ErrorCode.alreadyExists :=
  ⟨rfl, rfl⟩

/-- C7: after the five inserts of scenario S1, a full scan of the descending
index Users(Name DESC) projecting (Name, ID) yields (Peter,2), (Matthew,4),
(John,1), (Adam,0), (null,5), in that order. -/
theorem descending_index_scan :
    (applyMutations usersIndexes [] s1Inserts).map
        (fun db => (scanIndex usersByNameDescending db).map projNameId)
      = Except.ok [(Value.str "Peter", 2), (Value.str "Matthew", 4),
                   (Value.str "John", 1), (Value.str "Adam", 0),
                   (Value.null, 5)] := rfl

/-- C8: after the same five inserts, a full scan of the ascending index
Users(Name) projecting (Name, ID) yields (null,5), (Adam,0), (John,1),
(Matthew,4), (Peter,2), in that order — null sorts as the smallest value. -/
theorem ascending_index_scan :
    (applyMutations usersIndexes [] s1Inserts).map
        (fun db => (scanIndex usersByName db).map projNameId)
      = Except.ok [(Value.null, 5), (Value.str "Adam", 0),
                   (Value.str "John", 1), (Value.str "Matthew", 4),
                   (Value.str "Peter", 2)] := rfl

/-- C10: the empty string is non-null to index maintenance: a row whose Name
is "" is not filtered out of the null-filtered unique index on Name and
appears in its scan, and inserting another row with the same empty-string
index key fails with AlreadyExists. -/
theorem empty_string_not_null_in_index (db : List Row) (r r2 : Row)
    (hmem : r ∈ db)
    (hk : indexKeyVals usersByNameUniqueFiltered r = [Value.str ""])
    (hk2 : indexKeyVals usersByNameUniqueFiltered r2 = [Value.str ""]) :
    rowFiltered usersByNameUniqueFiltered r = false
    ∧ r ∈ scanIndex usersByNameUniqueFiltered db
    ∧ insertRow [usersByNameUniqueFiltered] db r2
        = Except.error ErrorCode.alreadyExists := by
  have hf : rowFiltered usersByNameUniqueFiltered r = false := by
    unfold rowFiltered
    rw [hk]
    decide
  have hf2 : rowFiltered usersByNameUniqueFiltered r2 = false := by
    unfold rowFiltered
    rw [hk2]
    decide
  refine ⟨hf, ?_, ?_⟩
  · unfold scanIndex
    rw [mem_sortByIndex, List.mem_filter]
    exact ⟨hmem, by rw [hf]; rfl⟩
  · have hany : db.any (fun x => !rowFiltered usersByNameUniqueFiltered x
        && (indexKeyVals usersByNameUniqueFiltered x
            == indexKeyVals usersByNameUniqueFiltered r2)) = true := by
      rw [List.any_eq_true]
      refine ⟨r, hmem, ?_⟩
      simp only [hf, hk, hk2]
      decide
    have hvc : uniqueConflict usersByNameUniqueFiltered db r2 = true := by
      unfold uniqueConflict
      rw [hf2, hany]
      rfl
    have hv : violatesUnique [usersByNameUniqueFiltered] db r2 = true := by
      unfold violatesUnique
      rw [List.any_eq_true]
      exact ⟨usersByNameUniqueFiltered, by simp, hvc⟩
    unfold insertRow
    by_cases hpk : db.any (fun x => x.id == r2.id) = true
    · rw [if_pos hpk]
    · rw [if_neg hpk, if_pos hv]

/-- C10, witness: the committed rows of the conformance uniqueness scenario,
with row (1,"",22) in the database and the new row (5,"",20) sharing the
empty-string Name key. -/
theorem empty_string_not_null_in_index_witness :
    (wRow1 ∈ wDb
      ∧ indexKeyVals usersByNameUniqueFiltered wRow1 = [Value.str ""]
      ∧ indexKeyVals usersByNameUniqueFiltered wNew = [Value.str ""])
    ∧ (rowFiltered usersByNameUniqueFiltered wRow1 = false
      ∧ wRow1 ∈ scanIndex usersByNameUniqueFiltered wDb
      ∧ insertRow [usersByNameUniqueFiltered] wDb wNew
          = Except.error ErrorCode.alreadyExists) :=
  ⟨⟨by decide, rfl, rfl⟩,
   empty_string_not_null_in_index wDb wRow1 wNew (by decide) rfl rfl⟩

end Emulator
